import Mathlib

/-!
Shallow embedding of the Solana Anchor program
`src/api-backend/server/solana-bridge.rs`, the custody and replay-protection
core of a cross-chain token bridge with four instructions: `lock`, `release`,
`mint_wrapped` and `burn_wrapped`.

Modelling conventions:
* `u64` values are `Nat`; the one arithmetic update the program performs on a
  stored `u64` (`bridge_state.nonce += 1`) is modelled with an explicit
  `% 2 ^ 64`, the wrapping behaviour of release-profile Rust addition.
* `[u8; 32]` identifiers are `Fin (2 ^ 256)`; `Vec<u8>` is `List (Fin 256)`.
* The SPL token program (an external collaborator, reached through
  `token::transfer`, `token::mint_to`, `token::burn`) is modelled at its
  interface: a transfer or burn fails on insufficient source balance, and a
  mint performed with the controller-derived mint authority succeeds.
* A Solana instruction that returns an error commits none of its account
  writes. Operations therefore return `Except`, where an error discards every
  intermediate update (in particular the `processed.push` that `release` and
  `mint_wrapped` perform before their token CPI), and `apply` keeps the
  pre-state on an error.
-/

namespace Bridge

/-- Identifiers of 32 bytes (`[u8; 32]` in the source), as their 256-bit
numeric value. -/
abbrev Bytes32 := Fin (2 ^ 256)

/-- Single bytes of a `Vec<u8>` argument. -/
abbrev Byte := Fin 256

/-- Account addresses, kept opaque. -/
abbrev Pubkey := Nat

/-- Modulus of `u64`. -/
def U64 : Nat := 2 ^ 64

/-- Contents of the `BridgeState` account: the `u64` nonce and the growable
list of 32-byte processed identifiers. -/
structure BridgeState where
  nonce : Nat
  processed : List Bytes32
deriving DecidableEq

/-- Balances of every token account an instruction can touch — the user's
native token account, the vault, the user's wrapped-token account and the
wrapped mint's supply — together with the bridge state. -/
structure ChainState where
  bridge : BridgeState
  userToken : Nat
  vault : Nat
  userWrapped : Nat
  wrappedSupply : Nat
deriving DecidableEq

/-- Constant account metadata that only feeds the emitted events. -/
structure Env where
  user : Pubkey
  tokenMint : Pubkey
  wrappedMint : Pubkey
  slot : Nat

/-- Errors: the three variants of the program's `BridgeError` enum, plus
`AdapterFailure` for an error returned by a token-program CPI and propagated
by `?`. -/
inductive BridgeError
  | InvalidAmount
  | InvalidTargetAddress
  | AlreadyProcessed
  | AdapterFailure
deriving DecidableEq

/-- Fields of the `Locked` event. -/
structure Locked where
  source : Pubkey
  token : Pubkey
  amount : Nat
  target_chain : Bytes32
  target_addr : List Byte
  nonce : Nat
  slot : Nat
deriving DecidableEq

/-- Fields of the `Released` event. -/
structure Released where
  recipient : Pubkey
  amount : Nat
  source_tx : Bytes32
deriving DecidableEq

/-- Fields of the `WrappedMinted` event. -/
structure WrappedMinted where
  recipient : Pubkey
  wrapped_mint : Pubkey
  amount : Nat
  source_tx : Bytes32
  source_chain : Bytes32
deriving DecidableEq

/-- Fields of the `WrappedBurned` event. -/
structure WrappedBurned where
  source : Pubkey
  wrapped_mint : Pubkey
  amount : Nat
  target_chain : Bytes32
  target_addr : List Byte
  nonce : Nat
deriving DecidableEq

instance {ε α : Type _} [DecidableEq ε] [DecidableEq α] : DecidableEq (Except ε α) := fun a b =>
  match a, b with
  | .ok x, .ok y =>
    if h : x = y then isTrue (by rw [h]) else isFalse (by intro hc; cases hc; exact h rfl)
  | .error x, .error y =>
    if h : x = y then isTrue (by rw [h]) else isFalse (by intro hc; cases hc; exact h rfl)
  | .ok _, .error _ => isFalse (by intro hc; cases hc)
  | .error _, .ok _ => isFalse (by intro hc; cases hc)

/-- Model of `token::transfer`: moves `amount` from `src` to `dst`, failing on
insufficient source balance. -/
def tokenTransfer (src dst amount : Nat) : Except BridgeError (Nat × Nat) :=
  if src < amount then .error .AdapterFailure else .ok (src - amount, dst + amount)

/-- Model of `token::mint_to` invoked with the controller-derived mint
authority: increases the supply and the destination balance. -/
def tokenMintTo (supply dst amount : Nat) : Except BridgeError (Nat × Nat) :=
  .ok (supply + amount, dst + amount)

/-- Model of `token::burn`: decreases the supply and the source balance,
failing on insufficient source balance. -/
def tokenBurn (supply src amount : Nat) : Except BridgeError (Nat × Nat) :=
  if src < amount then .error .AdapterFailure else .ok (supply - amount, src - amount)

/-- The `lock` instruction (source lines 10-36): requires a positive amount
and a target address of at most 64 bytes, transfers `amount` from the user's
token account into the vault, then increments the nonce and emits `Locked`. -/
def lock (env : Env) (s : ChainState) (amount : Nat) (target_chain : Bytes32)
    (target_addr : List Byte) : Except BridgeError (ChainState × Locked) :=
  if amount > 0 then
    if target_addr.length ≤ 64 then
      match tokenTransfer s.userToken s.vault amount with
      | .error e => .error e
      | .ok (u, v) =>
        let nonce := (s.bridge.nonce + 1) % U64
        .ok ({ s with
               userToken := u, vault := v
               bridge := { s.bridge with nonce := nonce } },
          { source := env.user, token := env.tokenMint, amount := amount
            target_chain := target_chain, target_addr := target_addr
            nonce := nonce, slot := env.slot })
    else .error .InvalidTargetAddress
  else .error .InvalidAmount

/-- The `release` instruction (source lines 38-68): rejects a `source_tx`
already in `processed`, pushes it onto `processed`, then transfers `amount`
from the vault to the user and emits `Released`. The source pushes before the
transfer CPI; a failing transfer aborts the whole instruction, so the push is
only committed in the success branch. -/
def release (env : Env) (s : ChainState) (amount : Nat) (source_tx : Bytes32) :
    Except BridgeError (ChainState × Released) :=
  if source_tx ∈ s.bridge.processed then .error .AlreadyProcessed
  else
    let processed := s.bridge.processed ++ [source_tx]
    match tokenTransfer s.vault s.userToken amount with
    | .error e => .error e
    | .ok (v, u) =>
      .ok ({ s with
             bridge := { s.bridge with processed := processed }
             vault := v, userToken := u },
        { recipient := env.user, amount := amount, source_tx := source_tx })

/-- The `mint_wrapped` instruction (source lines 70-111): rejects a
`source_tx` already in `processed`, pushes it onto `processed`, then mints
`amount` wrapped tokens to the user's account and emits `WrappedMinted`. -/
def mint_wrapped (env : Env) (s : ChainState) (amount : Nat) (source_tx : Bytes32)
    (source_chain : Bytes32) : Except BridgeError (ChainState × WrappedMinted) :=
  if source_tx ∈ s.bridge.processed then .error .AlreadyProcessed
  else
    let processed := s.bridge.processed ++ [source_tx]
    match tokenMintTo s.wrappedSupply s.userWrapped amount with
    | .error e => .error e
    | .ok (sup, w) =>
      .ok ({ s with
             bridge := { s.bridge with processed := processed }
             wrappedSupply := sup, userWrapped := w },
        { recipient := env.user, wrapped_mint := env.wrappedMint, amount := amount
          source_tx := source_tx, source_chain := source_chain })

/-- The `burn_wrapped` instruction (source lines 113-147): requires a positive
amount (the source performs no target-address length check here), burns
`amount` wrapped tokens from the user's account, then increments the nonce and
emits `WrappedBurned`. -/
def burn_wrapped (env : Env) (s : ChainState) (amount : Nat) (target_chain : Bytes32)
    (target_addr : List Byte) : Except BridgeError (ChainState × WrappedBurned) :=
  if amount > 0 then
    match tokenBurn s.wrappedSupply s.userWrapped amount with
    | .error e => .error e
    | .ok (sup, w) =>
      let nonce := (s.bridge.nonce + 1) % U64
      .ok ({ s with
             wrappedSupply := sup, userWrapped := w
             bridge := { s.bridge with nonce := nonce } },
        { source := env.user, wrapped_mint := env.wrappedMint, amount := amount
          target_chain := target_chain, target_addr := target_addr, nonce := nonce })
  else .error .InvalidAmount

/-- One invocation of a bridge instruction, with its arguments. -/
inductive Op
  | lock (amount : Nat) (target_chain : Bytes32) (target_addr : List Byte)
  | release (amount : Nat) (source_tx : Bytes32)
  | mint_wrapped (amount : Nat) (source_tx : Bytes32) (source_chain : Bytes32)
  | burn_wrapped (amount : Nat) (target_chain : Bytes32) (target_addr : List Byte)
deriving DecidableEq

/-- Emitted events, tagged by instruction. -/
inductive BridgeEvent
  | locked (e : Locked)
  | released (e : Released)
  | wrappedMinted (e : WrappedMinted)
  | wrappedBurned (e : WrappedBurned)
deriving DecidableEq

/-- Dispatches one operation to its instruction. -/
def exec (env : Env) (s : ChainState) : Op → Except BridgeError (ChainState × BridgeEvent)
  | .lock a tc addr => (lock env s a tc addr).map fun p => (p.1, .locked p.2)
  | .release a tx => (release env s a tx).map fun p => (p.1, .released p.2)
  | .mint_wrapped a tx sc => (mint_wrapped env s a tx sc).map fun p => (p.1, .wrappedMinted p.2)
  | .burn_wrapped a tc addr => (burn_wrapped env s a tc addr).map fun p => (p.1, .wrappedBurned p.2)

/-- Commits one instruction the way the Solana runtime does: on success the
new account state, on error the unchanged pre-state (every write reverted)
together with the error. -/
def apply (env : Env) (s : ChainState) (op : Op) : ChainState × Option BridgeError :=
  match exec env s op with
  | .ok p => (p.1, none)
  | .error e => (s, some e)

/-- Runs a list of operations, committing each in turn. -/
def run (env : Env) : ChainState → List Op → ChainState
  | s, [] => s
  | s, op :: rest => run env (apply env s op).1 rest

/-- The operations of a run, each paired with whether it succeeded. -/
def results (env : Env) : ChainState → List Op → List (Op × Bool)
  | _, [] => []
  | s, op :: rest => (op, ((apply env s op).2).isNone) :: results env (apply env s op).1 rest

/-- Amount moved into the vault by one (operation, success) pair. -/
def lockAmt : Op × Bool → Nat
  | (.lock a _ _, true) => a
  | _ => 0

/-- Amount moved out of the vault by one (operation, success) pair. -/
def releaseAmt : Op × Bool → Nat
  | (.release a _, true) => a
  | _ => 0

/-- Sum of the amounts of the successful lock calls of a run. -/
def lockSum (l : List (Op × Bool)) : Nat := (l.map lockAmt).sum

/-- Sum of the amounts of the successful release calls of a run. -/
def releaseSum (l : List (Op × Bool)) : Nat := (l.map releaseAmt).sum

/-- Nonce increments contributed by one (operation, success) pair. -/
def outboundBump : Op × Bool → Nat
  | (.lock _ _ _, true) => 1
  | (.burn_wrapped _ _ _, true) => 1
  | _ => 0

/-- Number of successful outbound (lock or burn_wrapped) calls of a run. -/
def outboundCount (l : List (Op × Bool)) : Nat := (l.map outboundBump).sum

/-- Source transaction identifier of an inbound operation, `none` for the
outbound ones. -/
def inboundTx : Op → Option Bytes32
  | .release _ tx => some tx
  | .mint_wrapped _ tx _ => some tx
  | _ => none

/-- Concrete account metadata for evaluating the model. -/
def env0 : Env := { user := 1, tokenMint := 2, wrappedMint := 3, slot := 4 }

/-- Concrete 32-byte identifier. -/
def tx0 : Bytes32 := ⟨0, by norm_num⟩

/-- Concrete 32-byte identifier distinct from `tx0`. -/
def tx1 : Bytes32 := ⟨1, by norm_num⟩

/-- Concrete 32-byte chain identifier. -/
def tc0 : Bytes32 := ⟨2, by norm_num⟩

/-- Concrete target address of 65 bytes, one past the bound checked by
`lock`. -/
def addr65 : List Byte := List.replicate 65 ⟨0, by norm_num⟩

/-- Concrete starting state: empty vault, nothing processed. -/
def s0 : ChainState :=
  { bridge := { nonce := 0, processed := [] },
    userToken := 10, vault := 0, userWrapped := 5, wrappedSupply := 5 }

/-- Concrete state whose nonce sits at the top of the `u64` range. -/
def sMax : ChainState :=
  { bridge := { nonce := U64 - 1, processed := [] },
    userToken := 1, vault := 0, userWrapped := 1, wrappedSupply := 1 }

/-- Concrete state in which `tx0` has already been processed. -/
def sDup : ChainState :=
  { bridge := { nonce := 0, processed := [tx0] },
    userToken := 0, vault := 5, userWrapped := 0, wrappedSupply := 0 }

/-! Equation lemmas presenting each instruction as nested conditionals. -/

theorem lock_eq (env : Env) (s : ChainState) (a : Nat) (tc : Bytes32) (addr : List Byte) :
    lock env s a tc addr =
      if a > 0 then
        if addr.length ≤ 64 then
          if s.userToken < a then .error .AdapterFailure
          else
            .ok ({ s with
                   userToken := s.userToken - a, vault := s.vault + a
                   bridge := { s.bridge with nonce := (s.bridge.nonce + 1) % U64 } },
              { source := env.user, token := env.tokenMint, amount := a
                target_chain := tc, target_addr := addr
                nonce := (s.bridge.nonce + 1) % U64, slot := env.slot })
        else .error .InvalidTargetAddress
      else .error .InvalidAmount := by
  simp only [lock, tokenTransfer]
  split_ifs <;> rfl

theorem release_eq (env : Env) (s : ChainState) (a : Nat) (tx : Bytes32) :
    release env s a tx =
      if tx ∈ s.bridge.processed then .error .AlreadyProcessed
      else if s.vault < a then .error .AdapterFailure
      else
        .ok ({ s with
               bridge := { s.bridge with processed := s.bridge.processed ++ [tx] }
               vault := s.vault - a, userToken := s.userToken + a },
          { recipient := env.user, amount := a, source_tx := tx }) := by
  simp only [release, tokenTransfer]
  split_ifs <;> rfl

theorem mint_wrapped_eq (env : Env) (s : ChainState) (a : Nat) (tx sc : Bytes32) :
    mint_wrapped env s a tx sc =
      if tx ∈ s.bridge.processed then .error .AlreadyProcessed
      else
        .ok ({ s with
               bridge := { s.bridge with processed := s.bridge.processed ++ [tx] }
               wrappedSupply := s.wrappedSupply + a, userWrapped := s.userWrapped + a },
          { recipient := env.user, wrapped_mint := env.wrappedMint, amount := a
            source_tx := tx, source_chain := sc }) := by
  simp only [mint_wrapped, tokenMintTo]

theorem burn_wrapped_eq (env : Env) (s : ChainState) (a : Nat) (tc : Bytes32) (addr : List Byte) :
    burn_wrapped env s a tc addr =
      if a > 0 then
        if s.userWrapped < a then .error .AdapterFailure
        else
          .ok ({ s with
                 wrappedSupply := s.wrappedSupply - a, userWrapped := s.userWrapped - a
                 bridge := { s.bridge with nonce := (s.bridge.nonce + 1) % U64 } },
            { source := env.user, wrapped_mint := env.wrappedMint, amount := a
              target_chain := tc, target_addr := addr, nonce := (s.bridge.nonce + 1) % U64 })
      else .error .InvalidAmount := by
  simp only [burn_wrapped, tokenBurn]
  split_ifs <;> rfl

/-! Per-operation effect lemmas on the committed state. -/

theorem apply_vault_step (env : Env) (s : ChainState) (op : Op) :
    (apply env s op).1.vault + releaseAmt (op, ((apply env s op).2).isNone)
      = s.vault + lockAmt (op, ((apply env s op).2).isNone) := by
  cases op <;>
    simp only [apply, exec, lock_eq, release_eq, mint_wrapped_eq, burn_wrapped_eq,
      Except.map] <;>
    split_ifs <;>
    simp_all [lockAmt, releaseAmt]

theorem apply_nonce_step (env : Env) (s : ChainState) (op : Op)
    (h : s.bridge.nonce < U64) :
    (apply env s op).1.bridge.nonce
      = (s.bridge.nonce + outboundBump (op, ((apply env s op).2).isNone)) % U64 := by
  cases op <;>
    simp only [apply, exec, lock_eq, release_eq, mint_wrapped_eq, burn_wrapped_eq,
      Except.map] <;>
    split_ifs <;>
    simp_all [outboundBump, Nat.mod_eq_of_lt h]

theorem apply_processed_step (env : Env) (s : ChainState) (op : Op) :
    (apply env s op).1.bridge.processed = s.bridge.processed ∨
      ∃ tx, tx ∉ s.bridge.processed ∧
        (apply env s op).1.bridge.processed = s.bridge.processed ++ [tx] := by
  cases op <;>
    simp only [apply, exec, lock_eq, release_eq, mint_wrapped_eq, burn_wrapped_eq,
      Except.map] <;>
    split_ifs <;>
    simp_all

/-! Lemmas about whole runs. -/

theorem run_vault_eq (env : Env) (ops : List Op) :
    ∀ s : ChainState, (run env s ops).vault + releaseSum (results env s ops)
      = s.vault + lockSum (results env s ops) := by
  induction ops with
  | nil => intro s; simp [run, results, lockSum, releaseSum]
  | cons op rest ih =>
    intro s
    have h1 := apply_vault_step env s op
    have h2 := ih (apply env s op).1
    simp only [run, results, lockSum, releaseSum, List.map_cons, List.sum_cons] at h1 h2 ⊢
    omega

theorem run_processed_grow (env : Env) (ops : List Op) :
    ∀ s : ChainState, (∃ t, (run env s ops).bridge.processed = s.bridge.processed ++ t) ∧
      (s.bridge.processed.Nodup → ((run env s ops).bridge.processed).Nodup) := by
  induction ops with
  | nil => intro s; exact ⟨⟨[], by simp [run]⟩, fun h => by simpa [run] using h⟩
  | cons op rest ih =>
    intro s
    obtain ⟨⟨t, ht⟩, hnd⟩ := ih (apply env s op).1
    rcases apply_processed_step env s op with h | ⟨tx, hmem, h⟩
    · refine ⟨⟨t, by rw [run, ht, h]⟩, fun hn => ?_⟩
      rw [run]
      exact hnd (h ▸ hn)
    · refine ⟨⟨[tx] ++ t, by rw [run, ht, h, List.append_assoc]⟩, fun hn => ?_⟩
      rw [run]
      refine hnd ?_
      rw [h]
      exact hn.append (List.nodup_singleton tx)
        (by simpa [List.disjoint_singleton] using hmem)

theorem run_nonce_eq (env : Env) (ops : List Op) :
    ∀ s : ChainState, s.bridge.nonce < U64 →
      (run env s ops).bridge.nonce
        = (s.bridge.nonce + outboundCount (results env s ops)) % U64 := by
  induction ops with
  | nil => intro s h; simp [run, results, outboundCount, Nat.mod_eq_of_lt h]
  | cons op rest ih =>
    intro s h
    have h1 := apply_nonce_step env s op h
    have hpos : 0 < U64 := by norm_num [U64]
    have hlt : (apply env s op).1.bridge.nonce < U64 := by
      rw [h1]; exact Nat.mod_lt _ hpos
    have h2 := ih (apply env s op).1 hlt
    simp only [run, results, outboundCount, List.map_cons, List.sum_cons] at h2 ⊢
    rw [h2, h1, Nat.mod_add_mod, Nat.add_assoc]

/-! Lemmas about the replay guard of the inbound operations. -/

theorem inbound_already (env : Env) (s : ChainState) (op : Op) (tx : Bytes32)
    (hop : inboundTx op = some tx) (hmem : tx ∈ s.bridge.processed) :
    apply env s op = (s, some BridgeError.AlreadyProcessed) := by
  cases op with
  | lock a tc addr => simp [inboundTx] at hop
  | burn_wrapped a tc addr => simp [inboundTx] at hop
  | release a tx2 =>
    obtain rfl : tx2 = tx := by simpa [inboundTx] using hop
    simp [apply, exec, release_eq, hmem, Except.map]
  | mint_wrapped a tx2 sc =>
    obtain rfl : tx2 = tx := by simpa [inboundTx] using hop
    simp [apply, exec, mint_wrapped_eq, hmem, Except.map]

theorem inbound_success_mem (env : Env) (s : ChainState) (op : Op) (tx : Bytes32)
    (hop : inboundTx op = some tx) (hs : (apply env s op).2 = none) :
    tx ∈ (apply env s op).1.bridge.processed := by
  cases op with
  | lock a tc addr => simp [inboundTx] at hop
  | burn_wrapped a tc addr => simp [inboundTx] at hop
  | release a tx2 =>
    obtain rfl : tx2 = tx := by simpa [inboundTx] using hop
    simp only [apply, exec, release_eq, Except.map] at hs ⊢
    split_ifs at hs ⊢ <;> simp_all
  | mint_wrapped a tx2 sc =>
    obtain rfl : tx2 = tx := by simpa [inboundTx] using hop
    simp only [apply, exec, mint_wrapped_eq, Except.map] at hs ⊢
    split_ifs at hs ⊢ <;> simp_all

/-- Additional committed-state facts used by witnesses. -/
def s0lock : ChainState :=
  { bridge := { nonce := 1, processed := [] },
    userToken := 9, vault := 1, userWrapped := 5, wrappedSupply := 5 }

/-- Locked event of a lock of amount 1 from `s0`. -/
def ev0lock : Locked :=
  { source := 1, token := 2, amount := 1, target_chain := tc0, target_addr := [],
    nonce := 1, slot := 4 }

/-- C1 (claim as stated is false): in a state whose processed list already
contains `tx0`, two release calls with `source_tx = tx0` both fail — zero
successes, not exactly one success and one failure. -/
theorem C1_counterexample :
    (apply env0 sDup (Op.release 1 tx0)).2 = some BridgeError.AlreadyProcessed ∧
    (apply env0 (apply env0 sDup (Op.release 1 tx0)).1 (Op.release 1 tx0)).2
      = some BridgeError.AlreadyProcessed := by
  decide

/-- C1 (amended): two inbound operations on the same `source_tx` never both
succeed, and whenever the first one succeeds the second fails with
`AlreadyProcessed` leaving the state unchanged — whichever of release or
mint_wrapped each of the two calls is. -/
theorem C1_inbound_exactly_once (env : Env) (s : ChainState) (op1 op2 : Op) (tx : Bytes32)
    (h1 : inboundTx op1 = some tx) (h2 : inboundTx op2 = some tx) :
    ¬ ((apply env s op1).2 = none ∧ (apply env (apply env s op1).1 op2).2 = none) ∧
    ((apply env s op1).2 = none →
      apply env (apply env s op1).1 op2
        = ((apply env s op1).1, some BridgeError.AlreadyProcessed)) := by
  have key : (apply env s op1).2 = none →
      apply env (apply env s op1).1 op2
        = ((apply env s op1).1, some BridgeError.AlreadyProcessed) := fun hs =>
    inbound_already env _ op2 tx h2 (inbound_success_mem env s op1 tx h1 hs)
  refine ⟨fun hb => ?_, key⟩
  obtain ⟨ha, hb⟩ := hb
  rw [key ha] at hb
  simp at hb

/-- C1 witness: a successful mint_wrapped of `tx1` followed by a release of
`tx1` gives one success then `AlreadyProcessed`. -/
theorem C1_witness :
    ¬ ((apply env0 s0 (Op.mint_wrapped 5 tx1 tc0)).2 = none ∧
       (apply env0 (apply env0 s0 (Op.mint_wrapped 5 tx1 tc0)).1 (Op.release 5 tx1)).2
         = none) ∧
    ((apply env0 s0 (Op.mint_wrapped 5 tx1 tc0)).2 = none →
      apply env0 (apply env0 s0 (Op.mint_wrapped 5 tx1 tc0)).1 (Op.release 5 tx1)
        = ((apply env0 s0 (Op.mint_wrapped 5 tx1 tc0)).1,
           some BridgeError.AlreadyProcessed)) :=
  C1_inbound_exactly_once env0 s0 (Op.mint_wrapped 5 tx1 tc0) (Op.release 5 tx1) tx1 rfl rfl

/-- C2: starting from an empty vault, the vault balance after any sequence of
operations equals the sum of the successful lock amounts minus the sum of the
successful release amounts, and the latter never exceeds the former; a release
whose amount exceeds the current vault balance fails with no state change, the
error being `AdapterFailure` whenever the replay guard passes. -/
theorem C2_vault_balance :
    (∀ (env : Env) (s : ChainState) (ops : List Op), s.vault = 0 →
      (run env s ops).vault + releaseSum (results env s ops)
          = lockSum (results env s ops) ∧
      releaseSum (results env s ops) ≤ lockSum (results env s ops)) ∧
    (∀ (env : Env) (s : ChainState) (a : Nat) (tx : Bytes32), s.vault < a →
      (∃ e, apply env s (Op.release a tx) = (s, some e)) ∧
      (tx ∉ s.bridge.processed →
        apply env s (Op.release a tx) = (s, some BridgeError.AdapterFailure))) := by
  constructor
  · intro env s ops h0
    have h := run_vault_eq env ops s
    rw [h0] at h
    omega
  · intro env s a tx hlt
    constructor
    · by_cases hmem : tx ∈ s.bridge.processed
      · exact ⟨_, inbound_already env s (Op.release a tx) tx rfl hmem⟩
      · exact ⟨BridgeError.AdapterFailure,
          by simp [apply, exec, release_eq, hmem, hlt, Except.map]⟩
    · intro hmem
      simp [apply, exec, release_eq, hmem, hlt, Except.map]

/-- C2 witness: a lock of 5 then a release of 3 from the empty vault, and a
release of 7 against a vault holding 0. -/
theorem C2_witness :
    ((run env0 s0 [Op.lock 5 tc0 [], Op.release 3 tx1]).vault
        + releaseSum (results env0 s0 [Op.lock 5 tc0 [], Op.release 3 tx1])
        = lockSum (results env0 s0 [Op.lock 5 tc0 [], Op.release 3 tx1]) ∧
      releaseSum (results env0 s0 [Op.lock 5 tc0 [], Op.release 3 tx1])
        ≤ lockSum (results env0 s0 [Op.lock 5 tc0 [], Op.release 3 tx1])) ∧
    ((∃ e, apply env0 s0 (Op.release 7 tx1) = (s0, some e)) ∧
      (tx1 ∉ s0.bridge.processed →
        apply env0 s0 (Op.release 7 tx1) = (s0, some BridgeError.AdapterFailure))) :=
  ⟨C2_vault_balance.1 env0 s0 [Op.lock 5 tc0 [], Op.release 3 tx1] rfl,
   C2_vault_balance.2 env0 s0 7 tx1 (by decide)⟩

/-- C3: no operation ever removes an identifier from `processed` (the new list
is always the old list with a possibly empty suffix appended), and from any
duplicate-free state every run keeps `processed` duplicate-free, because an
identifier is appended only when absent. -/
theorem C3_processed_monotone :
    (∀ (env : Env) (s : ChainState) (op : Op),
      ∃ t, (apply env s op).1.bridge.processed = s.bridge.processed ++ t) ∧
    (∀ (env : Env) (s : ChainState) (ops : List Op), s.bridge.processed.Nodup →
      ((run env s ops).bridge.processed).Nodup) := by
  constructor
  · intro env s op
    rcases apply_processed_step env s op with h | ⟨tx, _, h⟩
    · exact ⟨[], by simp [h]⟩
    · exact ⟨[tx], h⟩
  · intro env s ops h
    exact (run_processed_grow env ops s).2 h

/-- C3 witness: one inbound success extends `processed`, and a two-operation
run from the empty processed list stays duplicate-free. -/
theorem C3_witness :
    (∃ t, (apply env0 s0 (Op.release 0 tx1)).1.bridge.processed
        = s0.bridge.processed ++ t) ∧
    ((run env0 s0 [Op.release 0 tx1, Op.mint_wrapped 2 tx0 tc0]).bridge.processed).Nodup :=
  ⟨C3_processed_monotone.1 env0 s0 (Op.release 0 tx1),
   C3_processed_monotone.2 env0 s0 [Op.release 0 tx1, Op.mint_wrapped 2 tx0 tc0] (by decide)⟩

/-- C4: every error leaves the committed state exactly as it was — the runtime
reverts each write of a failing instruction — and in particular a release
whose transfer fails leaves `source_tx` absent from `processed` even though
the source pushes before the transfer. -/
theorem C4_error_frame :
    (∀ (env : Env) (s : ChainState) (op : Op) (e : BridgeError),
      exec env s op = .error e → apply env s op = (s, some e)) ∧
    (∀ (env : Env) (s : ChainState) (a : Nat) (tx : Bytes32),
      tx ∉ s.bridge.processed → s.vault < a →
        apply env s (Op.release a tx) = (s, some BridgeError.AdapterFailure) ∧
        tx ∉ (apply env s (Op.release a tx)).1.bridge.processed) := by
  constructor
  · intro env s op e h
    simp [apply, h]
  · intro env s a tx hmem hlt
    have h : apply env s (Op.release a tx) = (s, some BridgeError.AdapterFailure) := by
      simp [apply, exec, release_eq, hmem, hlt, Except.map]
    refine ⟨h, ?_⟩
    rw [h]
    exact hmem

/-- C4 witness: a zero-amount lock and an uncovered release both leave the
state untouched. -/
theorem C4_witness :
    apply env0 s0 (Op.lock 0 tc0 []) = (s0, some BridgeError.InvalidAmount) ∧
    (apply env0 s0 (Op.release 7 tx1) = (s0, some BridgeError.AdapterFailure) ∧
     tx1 ∉ (apply env0 s0 (Op.release 7 tx1)).1.bridge.processed) :=
  ⟨C4_error_frame.1 env0 s0 (Op.lock 0 tc0 []) BridgeError.InvalidAmount (by decide),
   C4_error_frame.2 env0 s0 7 tx1 (by decide) (by decide)⟩

/-- C5 (code bug): `burn_wrapped` performs no target-address length check — a
burn of amount 1 with a 65-byte target address succeeds, increments the nonce
and is not rejected with `InvalidTargetAddress`, although the spec bounds the
target address at 64 bytes for every outbound operation. -/
theorem C5_burn_addr_unchecked :
    addr65.length = 65 ∧
    (apply env0 s0 (Op.burn_wrapped 1 tc0 addr65)).2 = none ∧
    (apply env0 s0 (Op.burn_wrapped 1 tc0 addr65)).1.bridge.nonce
      = s0.bridge.nonce + 1 ∧
    burn_wrapped env0 s0 1 tc0 addr65 ≠ .error .InvalidTargetAddress := by
  decide

/-- C6 (claim as stated is false): from initial nonce `2 ^ 64 - 1`, one
successful lock wraps the `u64` nonce to 0 instead of `N_initial + 1`. -/
theorem C6_counterexample :
    results env0 sMax [Op.lock 1 tc0 []] = [(Op.lock 1 tc0 [], true)] ∧
    (run env0 sMax [Op.lock 1 tc0 []]).bridge.nonce = 0 ∧
    sMax.bridge.nonce + 1 ≠ 0 := by
  decide

/-- C6 (amended): after N successful lock or burn_wrapped calls the nonce is
`(N_initial + N) % 2 ^ 64` — equal to `N_initial + N` whenever that sum fits
in a `u64` — and release and mint_wrapped calls, successful or failed, never
change the nonce. -/
theorem C6_nonce_counter :
    (∀ (env : Env) (s : ChainState) (ops : List Op), s.bridge.nonce < U64 →
      (run env s ops).bridge.nonce
        = (s.bridge.nonce + outboundCount (results env s ops)) % U64) ∧
    (∀ (env : Env) (s : ChainState) (ops : List Op),
      s.bridge.nonce + outboundCount (results env s ops) < U64 →
      (run env s ops).bridge.nonce
        = s.bridge.nonce + outboundCount (results env s ops)) ∧
    (∀ (env : Env) (s : ChainState) (a : Nat) (tx sc : Bytes32),
      (apply env s (Op.release a tx)).1.bridge.nonce = s.bridge.nonce ∧
      (apply env s (Op.mint_wrapped a tx sc)).1.bridge.nonce = s.bridge.nonce) := by
  refine ⟨fun env s ops h => run_nonce_eq env ops s h, fun env s ops h => ?_,
    fun env s a tx sc => ⟨?_, ?_⟩⟩
  · rw [run_nonce_eq env ops s (lt_of_le_of_lt (Nat.le_add_right _ _) h),
      Nat.mod_eq_of_lt h]
  · simp only [apply, exec, release_eq, Except.map]
    split_ifs <;> simp
  · simp only [apply, exec, mint_wrapped_eq, Except.map]
    split_ifs <;> simp

/-- C6 witness: one successful lock from nonce 0 gives nonce 1, and inbound
calls leave the nonce of `s0` unchanged. -/
theorem C6_witness :
    (run env0 s0 [Op.lock 1 tc0 []]).bridge.nonce
      = (s0.bridge.nonce + outboundCount (results env0 s0 [Op.lock 1 tc0 []])) % U64 ∧
    (run env0 s0 [Op.lock 1 tc0 []]).bridge.nonce
      = s0.bridge.nonce + outboundCount (results env0 s0 [Op.lock 1 tc0 []]) ∧
    ((apply env0 s0 (Op.release 3 tx1)).1.bridge.nonce = s0.bridge.nonce ∧
     (apply env0 s0 (Op.mint_wrapped 3 tx1 tc0)).1.bridge.nonce = s0.bridge.nonce) :=
  ⟨C6_nonce_counter.1 env0 s0 [Op.lock 1 tc0 []] (by decide),
   C6_nonce_counter.2.1 env0 s0 [Op.lock 1 tc0 []] (by decide),
   C6_nonce_counter.2.2 env0 s0 3 tx1 tc0⟩

/-- C7: a zero-amount lock or burn_wrapped always fails with `InvalidAmount`
and commits no state change. -/
theorem C7_zero_amount (env : Env) (s : ChainState) (tc : Bytes32) (addr : List Byte) :
    lock env s 0 tc addr = .error .InvalidAmount ∧
    burn_wrapped env s 0 tc addr = .error .InvalidAmount ∧
    apply env s (Op.lock 0 tc addr) = (s, some BridgeError.InvalidAmount) ∧
    apply env s (Op.burn_wrapped 0 tc addr) = (s, some BridgeError.InvalidAmount) := by
  refine ⟨?_, ?_, ?_, ?_⟩ <;>
    simp [lock_eq, burn_wrapped_eq, apply, exec, Except.map]

/-- C8: a lock with a positive amount and a 65-byte target address fails with
`InvalidTargetAddress` and commits no state change. -/
theorem C8_long_target_addr (env : Env) (s : ChainState) (a : Nat) (tc : Bytes32)
    (addr : List Byte) (ha : 0 < a) (hlen : addr.length = 65) :
    lock env s a tc addr = .error .InvalidTargetAddress ∧
    apply env s (Op.lock a tc addr) = (s, some BridgeError.InvalidTargetAddress) := by
  have hgt : ¬ addr.length ≤ 64 := by omega
  exact ⟨by simp [lock_eq, ha, hgt],
    by simp [apply, exec, lock_eq, ha, hgt, Except.map]⟩

/-- C8 witness: lock of amount 5 with the concrete 65-byte address. -/
theorem C8_witness :
    lock env0 s0 5 tc0 addr65 = .error .InvalidTargetAddress ∧
    apply env0 s0 (Op.lock 5 tc0 addr65) = (s0, some BridgeError.InvalidTargetAddress) :=
  C8_long_target_addr env0 s0 5 tc0 addr65 (by decide) (by decide)

/-- C9 (claim as stated is false): a lock from nonce `2 ^ 64 - 1` succeeds and
sets the nonce to 0, which is not strictly greater than the nonce before the
call. -/
theorem C9_counterexample :
    (apply env0 sMax (Op.lock 1 tc0 [])).2 = none ∧
    (apply env0 sMax (Op.lock 1 tc0 [])).1.bridge.nonce = 0 ∧
    ¬ sMax.bridge.nonce < (apply env0 sMax (Op.lock 1 tc0 [])).1.bridge.nonce := by
  decide

/-- C9 (amended): every successful lock or burn_wrapped sets the nonce to
`(nonce + 1) % 2 ^ 64`; whenever `nonce + 1` still fits in a `u64` this is
`nonce + 1` and is strictly greater than the previous nonce. -/
theorem C9_nonce_strict_mono :
    (∀ (env : Env) (s : ChainState) (a : Nat) (tc : Bytes32) (addr : List Byte)
        (s1 : ChainState) (ev : Locked), lock env s a tc addr = .ok (s1, ev) →
      s1.bridge.nonce = (s.bridge.nonce + 1) % U64 ∧
      (s.bridge.nonce + 1 < U64 →
        s1.bridge.nonce = s.bridge.nonce + 1 ∧ s.bridge.nonce < s1.bridge.nonce)) ∧
    (∀ (env : Env) (s : ChainState) (a : Nat) (tc : Bytes32) (addr : List Byte)
        (s1 : ChainState) (ev : WrappedBurned), burn_wrapped env s a tc addr = .ok (s1, ev) →
      s1.bridge.nonce = (s.bridge.nonce + 1) % U64 ∧
      (s.bridge.nonce + 1 < U64 →
        s1.bridge.nonce = s.bridge.nonce + 1 ∧ s.bridge.nonce < s1.bridge.nonce)) := by
  constructor
  · intro env s a tc addr s1 ev h
    rw [lock_eq] at h
    split_ifs at h <;> try exact (Except.noConfusion h)
    simp only [Except.ok.injEq, Prod.mk.injEq] at h
    obtain ⟨h1, -⟩ := h
    subst h1
    refine ⟨by simp, fun hlt => ?_⟩
    simp only [Nat.mod_eq_of_lt hlt]
    exact ⟨trivial, Nat.lt_succ_self _⟩
  · intro env s a tc addr s1 ev h
    rw [burn_wrapped_eq] at h
    split_ifs at h <;> try exact (Except.noConfusion h)
    simp only [Except.ok.injEq, Prod.mk.injEq] at h
    obtain ⟨h1, -⟩ := h
    subst h1
    refine ⟨by simp, fun hlt => ?_⟩
    simp only [Nat.mod_eq_of_lt hlt]
    exact ⟨trivial, Nat.lt_succ_self _⟩

/-- C9 witness: the lock of amount 1 from `s0` increments the nonce from 0 to
1, a strict increase. -/
theorem C9_witness :
    s0lock.bridge.nonce = s0.bridge.nonce + 1 ∧ s0.bridge.nonce < s0lock.bridge.nonce :=
  (C9_nonce_strict_mono.1 env0 s0 1 tc0 [] s0lock ev0lock (by decide)).2 (by decide)

/-- C10: the inbound operations impose no positivity check on the amount — for
a fresh `source_tx`, release and mint_wrapped with amount 0 succeed, emit
their event with amount 0, and still append `source_tx` to `processed`,
consuming the message while moving no value. -/
theorem C10_inbound_zero (env : Env) (s : ChainState) (tx sc : Bytes32)
    (hmem : tx ∉ s.bridge.processed) :
    (∃ s1 ev, release env s 0 tx = .ok (s1, ev) ∧ ev.amount = 0 ∧
      s1.bridge.processed = s.bridge.processed ++ [tx] ∧ s1.vault = s.vault) ∧
    (∃ s1 ev, mint_wrapped env s 0 tx sc = .ok (s1, ev) ∧ ev.amount = 0 ∧
      s1.bridge.processed = s.bridge.processed ++ [tx] ∧
      s1.wrappedSupply = s.wrappedSupply) := by
  constructor
  · have h : release env s 0 tx
        = .ok ({ s with
                 bridge := { s.bridge with processed := s.bridge.processed ++ [tx] }
                 vault := s.vault - 0, userToken := s.userToken + 0 },
               { recipient := env.user, amount := 0, source_tx := tx }) := by
      simp [release_eq, hmem]
    exact ⟨_, _, h, rfl, by simp, by simp⟩
  · have h : mint_wrapped env s 0 tx sc
        = .ok ({ s with
                 bridge := { s.bridge with processed := s.bridge.processed ++ [tx] }
                 wrappedSupply := s.wrappedSupply + 0, userWrapped := s.userWrapped + 0 },
               { recipient := env.user, wrapped_mint := env.wrappedMint, amount := 0
                 source_tx := tx, source_chain := sc }) := by
      simp [mint_wrapped_eq, hmem]
    exact ⟨_, _, h, rfl, by simp, by simp⟩

/-- C10 witness: zero-amount release and mint of the fresh identifier `tx1`
from `s0`. -/
theorem C10_witness :
    (∃ s1 ev, release env0 s0 0 tx1 = .ok (s1, ev) ∧ ev.amount = 0 ∧
      s1.bridge.processed = s0.bridge.processed ++ [tx1] ∧ s1.vault = s0.vault) ∧
    (∃ s1 ev, mint_wrapped env0 s0 0 tx1 tc0 = .ok (s1, ev) ∧ ev.amount = 0 ∧
      s1.bridge.processed = s0.bridge.processed ++ [tx1] ∧
      s1.wrappedSupply = s0.wrappedSupply) :=
  C10_inbound_zero env0 s0 tx1 tc0 (by decide)

end Bridge
